import Mathlib

/-!
The promquery cluster capacity reporter.

Shallow embedding of `main.go`: the four query templates, `getValue`, `query`,
`run` and `main`, over an explicit world (standard output, the query client
constructions, the queries issued) and an environment that supplies everything
the program does not decide itself (the result of `api.NewClient`, the clock,
the backend's answers, the platform's out-of-range float conversion).

Go strings are modelled as Lean strings (sequences of characters), `int64` as
`Int` kept inside the 64-bit range, `time.Time` and `time.Duration` as `Int`
nanoseconds, and a `float64` as a dyadic number `m * 2 ^ e`, an infinity or NaN.
-/

namespace Promquery

/-! ## Go values -/

/-- Go `error` value, represented by the text its `Error` method returns. -/
structure GoError where
  msg : String
deriving DecidableEq, Repr

/-- Outcome of calling a Go function of result type `(α, error)`: it returns the
pair, or it panics with a message. -/
inductive Ret (α : Type) where
  | returned (v : α) (err : Option GoError)
  | panicked (msg : String)
deriving DecidableEq, Repr

/-- The `float64` values: the finite ones are `m * 2 ^ e`. -/
inductive Float64 where
  | finite (m : Int) (e : Int)
  | posInf
  | negInf
  | nan
deriving DecidableEq, Repr

/-- The rational number a finite `float64` stands for. -/
def dyadic (m e : Int) : ℚ := (m : ℚ) * (2 : ℚ) ^ e

def minInt64 : Int := -(2 ^ 63)

def maxInt64 : Int := 2 ^ 63 - 1

/-- Two's-complement wrap of an integer into the `int64` range. -/
def wrapInt64 (n : Int) : Int := (n + 2 ^ 63) % 2 ^ 64 - 2 ^ 63

/-- Integer part of `m * 2 ^ e`: the fraction is discarded. -/
def truncDyadic (m e : Int) : Int :=
  if 0 ≤ e then m * 2 ^ e.toNat else Int.tdiv m (2 ^ (-e).toNat)

/-- Go conversion `int64(x)` of a `float64`. The fraction is discarded; when the
result does not fit `int64` (or `x` is an infinity or NaN) the conversion still
succeeds and its value is implementation-dependent: `impl` is that choice. -/
def int64OfFloat64 (impl : Float64 → Int) (x : Float64) : Int :=
  match x with
  | .finite m e =>
    if minInt64 ≤ truncDyadic m e ∧ truncDyadic m e ≤ maxInt64 then truncDyadic m e
    else wrapInt64 (impl x)
  | _ => wrapInt64 (impl x)

/-- A `model.Sample`. -/
structure Sample where
  metric : List (String × String)
  value : Float64
  timestamp : Int
deriving DecidableEq, Repr

/-- A `model.Value`: the interface is implemented by `*model.Scalar`,
`model.Vector`, `model.Matrix` and `*model.String`; an interface value may also
be nil. A vector is a slice of pointers to samples: `none` is a nil pointer. -/
inductive Value where
  | scalar (value : Float64) (timestamp : Int)
  | vector (samples : List (Option Sample))
  | matrix (streams : List (List (String × String) × List (Int × Float64)))
  | string (value : String) (timestamp : Int)
  | nil
deriving DecidableEq, Repr

/-- Name of the dynamic type of a `model.Value`, as the Go runtime prints it. -/
def Value.typeName : Value → String
  | .scalar _ _ => "*model.Scalar"
  | .vector _ => "model.Vector"
  | .matrix _ => "model.Matrix"
  | .string _ _ => "*model.String"
  | .nil => "nil"

def Value.isVector : Value → Bool
  | .vector _ => true
  | _ => false

/-- Message of the runtime panic raised by the failed assertion
`val.(model.Vector)`. -/
def typeAssertMsg (val : Value) : String :=
  "interface conversion: model.Value is " ++ val.typeName ++ ", not model.Vector"

/-! ## fmt.Sprintf

The fragment of `fmt` the program uses: the verbs `%s`, `%d`, `%v` and `%%`
written directly after the percent sign, over string, `int64` and `error`
operands. Flags, widths, precisions, argument indexes and the other verbs occur
in none of the program's format strings and are outside the fragment: an
operand under another verb is rendered in the bad-verb form throughout. -/

/-- An operand of a formatting call. -/
inductive Arg where
  | str (s : String)
  | int64 (n : Int)
  | error (e : GoError)
deriving DecidableEq, Repr

/-- Default rendering of an operand. -/
def Arg.text : Arg → List Char
  | .str s => s.data
  | .int64 n => (toString n).data
  | .error e => e.msg.data

def Arg.typeName : Arg → String
  | .str _ => "string"
  | .int64 _ => "int64"
  | .error _ => "*errors.errorString"

/-- Whether the verb applies to the operand. -/
def Arg.accepts : Arg → Char → Bool
  | .str _, verb => verb = 's' || verb = 'v'
  | .int64 _, verb => verb = 'd' || verb = 'v'
  | .error _, verb => verb = 's' || verb = 'v'

/-- One operand under one verb; a verb that does not apply gives
`%!verb(type=value)`. -/
def formatArg (verb : Char) (a : Arg) : List Char :=
  if a.accepts verb then a.text
  else '%' :: '!' :: verb :: '(' :: (a.typeName.data ++ '=' :: (a.text ++ [')']))

/-- Operands left over when the format is exhausted. -/
def extraList : List Arg → List Char
  | [] => []
  | [a] => a.typeName.data ++ '=' :: a.text
  | a :: b :: rest => a.typeName.data ++ '=' :: (a.text ++ ',' :: ' ' :: extraList (b :: rest))

def extraArgs (args : List Arg) : List Char :=
  match args with
  | [] => []
  | _ :: _ => "%!(EXTRA ".data ++ extraList args ++ [')']

/-- Scanner of the format: `afterPercent` says that the previous character was
an unconsumed percent sign. -/
def sprintfAux : Bool → List Char → List Arg → List Char
  | false, [], args => extraArgs args
  | true, [], args => "%!(NOVERB)".data ++ extraArgs args
  | false, c :: rest, args =>
    if c = '%' then sprintfAux true rest args else c :: sprintfAux false rest args
  | true, verb :: rest, args =>
    if verb = '%' then '%' :: sprintfAux false rest args
    else
      match args with
      | [] => '%' :: '!' :: verb :: ("(MISSING)".data ++ sprintfAux false rest [])
      | a :: more => formatArg verb a ++ sprintfAux false rest more

/-- The function `fmt.Sprintf`. -/
def Sprintf (format : String) (args : List Arg) : String :=
  ⟨sprintfAux false format.data args⟩

/-! ## The program's constants -/

def queryCPU : String :=
  "sum(kube_node_status_capacity\x7bcluster=\"%s\", resource=\"cpu\"\x7d) * 1000"

def queryMemory : String :=
  "sum(kube_node_status_capacity\x7bcluster=\"%s\", resource=\"memory\"\x7d)/1024/1024"

def queryEphemeralStorage : String :=
  "sum(node_filesystem_size_bytes\x7bfstype=~\"ext[234]|btrfs|xfs|zfs\",cluster=\"%s\", job=\"node-exporter\", mountpoint=\"/var\"\x7d )/1024/1024/1024"

def queryStorage : String :=
  "ceph_cluster_total_bytes\x7bcluster=\"%s\"\x7d/1024/1024/1024"

/-- The command-line flags after `flag.Parse`. -/
structure Flags where
  cluster : String
  thanosQuery : String
  timeout : Int
deriving DecidableEq, Repr

/-- The values the flags have when none is given on the command line. -/
def defaultFlags : Flags :=
  ⟨"", "", 10 * 1000000000⟩

/-! ## The world and the environment -/

/-- A `context.Context` with a deadline. -/
structure Context where
  deadline : Int
deriving DecidableEq, Repr

/-- The query client made by `api.NewClient` and wrapped by `v1.NewAPI`. -/
structure Client where
  address : String
deriving DecidableEq, Repr

/-- One call of `api.Query`: the context, the client, the query string and the
evaluation time. -/
structure QueryCall where
  ctx : Context
  client : Client
  query : String
  ts : Int
deriving DecidableEq, Repr

/-- What `api.Query` returns: the value and the error (the warnings are
discarded by the program). -/
structure Response where
  value : Value
  err : Option GoError
deriving DecidableEq, Repr

/-- One executed call of `query`: the call made to the backend, the backend's
answer and what `query` returned. -/
structure Entry where
  call : QueryCall
  resp : Response
  ret : Ret Int
deriving DecidableEq, Repr

/-- Everything outside the program. `newClient` is the error of `api.NewClient`
for an address (`none` when the client is built), `clock n` the `n`-th reading
of the clock, `backend` the answer to a call given the calls made before it. -/
structure Env where
  impl : Float64 → Int
  newClient : String → Option GoError
  clock : Nat → Int
  backend : List QueryCall → QueryCall → Response

/-- The observable state of a run. -/
structure World where
  stdout : String
  clients : List String
  clockReads : Nat
  contexts : List Context
  cancelled : List Context
  trace : List Entry
deriving DecidableEq, Repr

/-- The world at process start. -/
def World.init : World := ⟨"", [], 0, [], [], []⟩

/-- How the process ends: `os.Exit code`, or an unrecovered panic. -/
inductive Termination where
  | exit (code : Nat)
  | panic (msg : String)
deriving DecidableEq, Repr

/-- Exit status of the process; the Go runtime exits with status 2 on an
unrecovered panic. -/
def Termination.exitCode : Termination → Nat
  | .exit code => code
  | .panic _ => 2

/-- The function `fmt.Printf`: writes the formatted text to standard output. -/
def Printf (w : World) (format : String) (args : List Arg) : World :=
  { w with stdout := w.stdout ++ Sprintf format args }

/-- The function `time.Now`. -/
def timeNow (env : Env) (w : World) : World × Int :=
  ({ w with clockReads := w.clockReads + 1 }, env.clock w.clockReads)

/-- The function `context.WithTimeout` on the background context: the deadline
is the clock reading at creation plus the timeout. -/
def WithTimeout (env : Env) (w : World) (timeout : Int) : World × Context :=
  let ctx : Context := ⟨env.clock w.clockReads + timeout⟩
  ({ w with clockReads := w.clockReads + 1, contexts := w.contexts ++ [ctx] }, ctx)

/-! ## The program -/

/-- The function `getValue`: the unchecked assertion `val.(model.Vector)` panics
on any other shape; an empty vector gives the error; otherwise the value of
`v[0]` is converted to `int64`. -/
def getValue (impl : Float64 → Int) (val : Value) : Ret Int :=
  match val with
  | .vector v =>
    if v.length = 0 then
      .returned 0 (some ⟨"empty result returned, please check whether the cluster is added to Thanos query or not"⟩)
    else
      match v[0]? with
      | some (some s) => .returned (int64OfFloat64 impl s.value) none
      | some none => .panicked "runtime error: invalid memory address or nil pointer dereference"
      | none => .panicked "runtime error: index out of range [0] with length 0"
  | other => .panicked (typeAssertMsg other)

/-- The function `query`: formats the template with the cluster name, calls
`api.Query`, returns `0` and the error when there is one and the result of
`getValue` otherwise. The call, the answer and the return are appended to the
trace. -/
def query (env : Env) (w : World) (ctx : Context) (api : Client) (t : Int)
    (template cluster : String) : World × Ret Int :=
  let call : QueryCall := ⟨ctx, api, Sprintf template [.str cluster], t⟩
  let resp := env.backend (w.trace.map Entry.call) call
  let ret : Ret Int :=
    match resp.err with
    | some err => .returned 0 (some err)
    | none => getValue env.impl resp.value
  ({ w with trace := w.trace ++ [⟨call, resp, ret⟩] }, ret)

/-- The labels of the four metrics. -/
def items : List String := ["CPU", "memory", "ephemeral storage", "storage"]

/-- The four query templates, in the order of the loop. -/
def queries : List String := [queryCPU, queryMemory, queryEphemeralStorage, queryStorage]

/-- The loop of `run` over the remaining `(i, q)` pairs of the range. -/
def runLoop (env : Env) (cluster : String) (ctx : Context) (a : Client) (now : Int) :
    List (Nat × String) → World → World × Ret Unit
  | [], w => (w, .returned () none)
  | (i, q) :: rest, w =>
    match query env w ctx a now q cluster with
    | (w1, .panicked msg) => (w1, .panicked msg)
    | (w1, .returned _ (some err)) => (w1, .returned () (some err))
    | (w1, .returned v none) =>
      match items[i]? with
      | none => (w1, .panicked "runtime error: index out of range")
      | some item =>
        runLoop env cluster ctx a now rest
          (Printf w1 "%s cluster %s: %d\n" [.str cluster, .str item, .int64 v])

/-- The function `run`: builds the client, reads the clock, creates the one
context with the timeout, runs the loop; the deferred `cancel` runs on every
way out once the context exists. -/
def run (env : Env) (flags : Flags) (w : World) : World × Ret Unit :=
  let w1 : World := { w with clients := w.clients ++ [flags.thanosQuery] }
  match env.newClient flags.thanosQuery with
  | some err => (w1, .returned () (some err))
  | none =>
    let a : Client := ⟨flags.thanosQuery⟩
    let (w2, now) := timeNow env w1
    let (w3, ctx) := WithTimeout env w2 flags.timeout
    let (w4, r) := runLoop env flags.cluster ctx a now queries.enum w3
    ({ w4 with cancelled := w4.cancelled ++ [ctx] }, r)

/-- The function `main`, after `flag.Parse`. -/
def main (env : Env) (flags : Flags) : World × Termination :=
  if flags.cluster = "" ∨ flags.thanosQuery = "" then
    (Printf World.init "cluster or thanos query url cannot be empty" [], .exit 1)
  else
    match run env flags World.init with
    | (w, .returned _ (some err)) => (Printf w "failed to query thanos: %v" [.error err], .exit 1)
    | (w, .returned _ none) => (w, .exit 0)
    | (w, .panicked msg) => (w, .panic msg)

/-! ## Specification-side definitions -/

/-- Truncation of a rational toward zero: the floor of a non-negative number,
the ceiling of a negative one. -/
def truncTowardZero (x : ℚ) : Int := if 0 ≤ x then ⌊x⌋ else ⌈x⌉

/-- The report line of one metric. -/
def reportLine (cluster item : String) (v : Int) : String :=
  cluster ++ " cluster " ++ item ++ ": " ++ toString v ++ "\n"

/-- The report lines of the leading metrics, one per value, in the order of the
labels. -/
def reportLines (cluster : String) : List String → List Int → String
  | item :: labels, v :: vs => reportLine cluster item v ++ reportLines cluster labels vs
  | _, _ => ""

/-- What `query` returns for a backend answer. -/
def retOf (impl : Float64 → Int) (resp : Response) : Ret Int :=
  match resp.err with
  | some err => .returned 0 (some err)
  | none => getValue impl resp.value

/-- A call that returned a value and a nil error. -/
def Ret.isOk {α : Type} : Ret α → Bool
  | .returned _ none => true
  | _ => false

/-- The successful return of a value. -/
def okRet (v : Int) : Ret Int := .returned v none

/-- The call `query` makes for a template. -/
def callOf (ctx : Context) (a : Client) (now : Int) (cluster q : String) : QueryCall :=
  ⟨ctx, a, Sprintf q [.str cluster], now⟩

/-- How the run of the loop closes the list of returns of `query`. -/
def Closing (tail : List (Ret Int)) (r : Ret Unit) : Prop :=
  (tail = [] ∧ r = .returned () none) ∨
  (∃ v e, tail = [.returned v (some e)] ∧ r = .returned () (some e)) ∨
  (∃ m, tail = [.panicked m] ∧ r = .panicked m)

/-- The context `run` creates: its deadline is the second clock reading plus
the timeout. -/
def runContext (env : Env) (flags : Flags) : Context := ⟨env.clock 1 + flags.timeout⟩

/-- The world a run that reached the loop ends in. -/
def ranWorld (env : Env) (flags : Flags) (out : String) (es : List Entry) : World :=
  ⟨out, [flags.thanosQuery], 2, [runContext env flags], [runContext env flags], es⟩

/-- The template is `pre`, the placeholder `%s` and `suf`, neither part holds a
percent sign, and formatting the template with a cluster name puts the name
between the two parts and leaves them unchanged, also in the call `query`
records. -/
def SubstitutesOnce (template pre suf : String) : Prop :=
  template = pre ++ "%s" ++ suf ∧ '%' ∉ pre.data ∧ '%' ∉ suf.data ∧
  (∀ c : String, Sprintf template [.str c] = pre ++ c ++ suf) ∧
  (∀ (env : Env) (w : World) (ctx : Context) (a : Client) (t : Int) (c : String),
    (query env w ctx a t template c).1.trace.map (fun e => e.call.query) =
      w.trace.map (fun e => e.call.query) ++ [pre ++ c ++ suf])

/-! ## Concrete runs -/

/-- A backend answer: a vector of one sample of value `m * 2 ^ e`. -/
def sampleVector (m e : Int) : Response := ⟨.vector [some ⟨[], .finite m e, 0⟩], none⟩

/-- An environment whose backend answers the four queries with 32000, 131072,
500 and 2000. -/
def prodEnv : Env where
  impl := fun _ => 0
  newClient := fun _ => none
  clock := fun n => 1000 + n
  backend := fun earlier _ =>
    match earlier.length with
    | 0 => sampleVector 32000 0
    | 1 => sampleVector 131072 0
    | 2 => sampleVector 500 0
    | _ => sampleVector 2000 0

/-- An environment whose backend fails the second query. -/
def memoryFailsEnv : Env where
  impl := fun _ => 0
  newClient := fun _ => none
  clock := fun n => 1000 + n
  backend := fun earlier _ =>
    match earlier.length with
    | 0 => sampleVector 32000 0
    | 1 => ⟨.nil, some ⟨"context deadline exceeded"⟩⟩
    | 2 => sampleVector 500 0
    | _ => sampleVector 2000 0

/-- Flags of a run for the cluster `prod`. -/
def prodFlags : Flags := ⟨"prod", "http://thanos:9090", 10 * 1000000000⟩

/-- An environment whose backend answers the second query with a scalar. -/
def scalarEnv : Env where
  impl := fun _ => 0
  newClient := fun _ => none
  clock := fun n => 1000 + n
  backend := fun earlier _ =>
    match earlier.length with
    | 0 => sampleVector 32000 0
    | 1 => ⟨.scalar (.finite 1 0) 0, none⟩
    | 2 => sampleVector 500 0
    | _ => sampleVector 2000 0

/-- The second entry of the trace of a run against `scalarEnv`. -/
def scalarEntry : Entry :=
  ⟨⟨⟨1001 + 10 * 1000000000⟩, ⟨"http://thanos:9090"⟩,
      "sum(kube_node_status_capacity\x7bcluster=\"prod\", resource=\"memory\"\x7d)/1024/1024",
      1000⟩,
    ⟨.scalar (.finite 1 0) 0, none⟩,
    .panicked "interface conversion: model.Value is *model.Scalar, not model.Vector"⟩

/-- The first entry of the trace of a run against `prodEnv`. -/
def cpuEntry : Entry :=
  ⟨⟨⟨1001 + 10 * 1000000000⟩, ⟨"http://thanos:9090"⟩,
      "sum(kube_node_status_capacity\x7bcluster=\"prod\", resource=\"cpu\"\x7d) * 1000",
      1000⟩,
    sampleVector 32000 0,
    .returned 32000 none⟩

/-- An environment whose backend answers two queries and fails the third with
the error of an expired deadline. -/
def slowEnv : Env where
  impl := fun _ => 0
  newClient := fun _ => none
  clock := fun n => 1000 + n
  backend := fun earlier _ =>
    match earlier.length with
    | 0 => sampleVector 32000 0
    | 1 => sampleVector 131072 0
    | _ => ⟨.nil, some ⟨"context deadline exceeded"⟩⟩

/-- Flags of a run for the cluster `prod` with a timeout of one second. -/
def oneSecondFlags : Flags := ⟨"prod", "http://thanos:9090", 1000000000⟩

/-! ## Timing of the calls

The calls are sequential: a call starts when the one before it has returned.
A timed trace pairs every call with the time it took. -/

/-- The time at which the last call of a timed trace returns, the first one
starting at `start`. -/
def endTime : Int → List (Entry × Int) → Int
  | start, [] => start
  | start, (_, d) :: rest => endTime (start + d) rest

/-- The backend honours the context of every call: a call takes no negative
time and returns no later than the deadline of the context it was given, or at
once when that deadline has already passed. -/
def DeadlineHonoured : Int → List (Entry × Int) → Prop
  | _, [] => True
  | start, (e, d) :: rest =>
    0 ≤ d ∧ start + d ≤ max start e.call.ctx.deadline ∧ DeadlineHonoured (start + d) rest

/-- The timed trace of a run against `slowEnv`: the three calls take 400 ms,
400 ms and 200 ms, each less than the timeout of one second. -/
def slowTimed : List (Entry × Int) :=
  (main slowEnv oneSecondFlags).1.trace.zip [400000000, 400000000, 200000000]

/-! ## Truncation -/

theorem dyadic_nonneg_exp (m e : Int) (he : 0 ≤ e) : dyadic m e = ((m * 2 ^ e.toNat : Int) : ℚ) := by
  unfold dyadic
  obtain ⟨k, rfl⟩ := Int.eq_ofNat_of_zero_le he
  simp [zpow_natCast]

theorem dyadic_neg_exp (m e : Int) (he : ¬ 0 ≤ e) :
    dyadic m e = (m : ℚ) / ((2 ^ (-e).toNat : Nat) : ℚ) := by
  unfold dyadic
  have h : e = -((-e).toNat : Int) := by
    rw [Int.toNat_of_nonneg (by omega)]; omega
  conv_lhs => rw [h]
  rw [zpow_neg, zpow_natCast]
  push_cast
  rw [div_eq_mul_inv]

theorem truncDyadic_eq (m e : Int) : truncDyadic m e = truncTowardZero (dyadic m e) := by
  unfold truncDyadic truncTowardZero
  by_cases he : 0 ≤ e
  · rw [if_pos he, dyadic_nonneg_exp m e he]
    split
    · exact (Int.floor_intCast _).symm
    · exact (Int.ceil_intCast _).symm
  · rw [if_neg he, dyadic_neg_exp m e he]
    have hd : (0 : ℚ) < ((2 ^ (-e).toNat : Nat) : ℚ) := by positivity
    have hcast : ((2 : Int) ^ (-e).toNat) = ((2 ^ (-e).toNat : Nat) : Int) := by push_cast; rfl
    rw [hcast]
    by_cases hm : 0 ≤ m
    · have hx : (0 : ℚ) ≤ (m : ℚ) / ((2 ^ (-e).toNat : Nat) : ℚ) :=
        div_nonneg (by exact_mod_cast hm) hd.le
      rw [if_pos hx, Rat.floor_intCast_div_natCast, Int.tdiv_eq_ediv hm (by positivity)]
    · have hm' : m < 0 := by omega
      have hx : ¬ (0 : ℚ) ≤ (m : ℚ) / ((2 ^ (-e).toNat : Nat) : ℚ) := by
        rw [not_le]
        exact div_neg_of_neg_of_pos (by exact_mod_cast hm') hd
      rw [if_neg hx]
      have h1 : ⌈(m : ℚ) / ((2 ^ (-e).toNat : Nat) : ℚ)⌉
          = -⌊((-m : Int) : ℚ) / ((2 ^ (-e).toNat : Nat) : ℚ)⌋ := by
        rw [← Int.ceil_neg]; congr 1; push_cast; ring
      rw [h1, Rat.floor_intCast_div_natCast]
      have h2 : m.tdiv ((2 ^ (-e).toNat : Nat) : Int) = -((-m).tdiv ((2 ^ (-e).toNat : Nat) : Int)) := by
        rw [Int.neg_tdiv, neg_neg]
      rw [h2, Int.tdiv_eq_ediv (by omega) (by positivity)]

/-! ## Formatting -/

theorem sprintfAux_plain (l : List Char) (rest : List Char) (args : List Arg)
    (h : '%' ∉ l) : sprintfAux false (l ++ rest) args = l ++ sprintfAux false rest args := by
  induction l with
  | nil => rfl
  | cons c l ih =>
    have hc : c ≠ '%' := fun hc => h (by simp [hc])
    have hl : '%' ∉ l := fun hl => h (by simp [hl])
    simp [sprintfAux, hc, ih hl]

theorem sprintfAux_plain_end (l : List Char) (h : '%' ∉ l) : sprintfAux false l [] = l := by
  have := sprintfAux_plain l [] [] h
  simpa [sprintfAux, extraArgs] using this

theorem Sprintf_template (pre suf c : String) (hp : '%' ∉ pre.data) (hs : '%' ∉ suf.data) :
    Sprintf (pre ++ "%s" ++ suf) [.str c] = pre ++ c ++ suf := by
  apply String.ext
  simp only [Sprintf, String.data_append]
  rw [List.append_assoc, sprintfAux_plain _ _ _ hp]
  simp [sprintfAux, formatArg, Arg.accepts, Arg.text, sprintfAux_plain_end _ hs]

theorem Sprintf_reportLine (c item : String) (v : Int) :
    Sprintf "%s cluster %s: %d\n" [.str c, .str item, .int64 v]
      = c ++ " cluster " ++ item ++ ": " ++ toString v ++ "\n" := by
  apply String.ext
  simp [Sprintf, sprintfAux, formatArg, Arg.accepts, Arg.text, extraArgs]

theorem Sprintf_failed (e : GoError) :
    Sprintf "failed to query thanos: %v" [.error e] = "failed to query thanos: " ++ e.msg := by
  apply String.ext
  simp [Sprintf, sprintfAux, formatArg, Arg.accepts, Arg.text, extraArgs]

theorem Sprintf_empty_flags :
    Sprintf "cluster or thanos query url cannot be empty" []
      = "cluster or thanos query url cannot be empty" := by
  decide

/-! ## The loop and the process -/

theorem query_eq (env : Env) (w : World) (ctx : Context) (a : Client) (t : Int)
    (q cluster : String) :
    query env w ctx a t q cluster =
      ({ w with trace := w.trace ++
          [⟨callOf ctx a t cluster q, env.backend (w.trace.map Entry.call) (callOf ctx a t cluster q),
            retOf env.impl (env.backend (w.trace.map Entry.call) (callOf ctx a t cluster q))⟩] },
        retOf env.impl (env.backend (w.trace.map Entry.call) (callOf ctx a t cluster q))) := rfl

theorem runLoop_spec (env : Env) (cluster : String) (ctx : Context) (a : Client) (now : Int) :
    ∀ (work : List (Nat × String)) (labels : List String) (w : World),
      work.map (fun p => items[p.1]?) = labels.map some →
      ∃ (es : List Entry) (vs : List Int) (tail : List (Ret Int)),
        (runLoop env cluster ctx a now work w).1 =
          { w with stdout := w.stdout ++ reportLines cluster labels vs,
                   trace := w.trace ++ es } ∧
        es.map Entry.call = (work.take es.length).map (fun p => callOf ctx a now cluster p.2) ∧
        es.length ≤ work.length ∧
        (∀ e ∈ es, e.ret = retOf env.impl e.resp) ∧
        es.map Entry.ret = vs.map okRet ++ tail ∧
        Closing tail (runLoop env cluster ctx a now work w).2 ∧
        (tail = [] → vs.length = work.length) := by
  intro work
  induction work with
  | nil =>
    intro labels w _
    refine ⟨[], [], [], ?_, rfl, le_refl _, ?_, rfl, Or.inl ⟨rfl, rfl⟩, fun _ => rfl⟩
    · cases labels <;> simp [runLoop, reportLines]
    · intro e he; cases he
  | cons p rest ih =>
    obtain ⟨i, q⟩ := p
    intro labels w hl
    cases labels with
    | nil => simp at hl
    | cons item labels =>
      simp only [List.map_cons, List.cons.injEq] at hl
      obtain ⟨hitem, hrest⟩ := hl
      rw [runLoop, query_eq]
      generalize hresp : env.backend (w.trace.map Entry.call) (callOf ctx a now cluster q) = resp
      rcases hret : retOf env.impl resp with ⟨v, (_ | e)⟩ | m
      · -- the query succeeded: the line is printed and the loop goes on
        simp only [hitem]
        obtain ⟨es, vs, tail, hw, hcalls, hlen, hcons, hrets, hclose, hfull⟩ :=
          ih labels
            (Printf { w with trace := w.trace ++ [⟨callOf ctx a now cluster q, resp, .returned v none⟩] }
              "%s cluster %s: %d\n" [.str cluster, .str item, .int64 v]) hrest
        refine ⟨⟨callOf ctx a now cluster q, resp, .returned v none⟩ :: es, v :: vs, tail,
          ?_, ?_, ?_, ?_, ?_, hclose, ?_⟩
        · rw [hw]
          simp [Printf, Sprintf_reportLine, reportLines, reportLine, String.append_assoc]
        · simp [hcalls]
        · simp; omega
        · intro e he
          rcases List.mem_cons.mp he with rfl | he
          · exact hret.symm
          · exact hcons e he
        · simp [hrets, okRet]
        · intro ht; simp [hfull ht]
      · refine ⟨[⟨callOf ctx a now cluster q, resp, .returned v (some e)⟩], [], [.returned v (some e)],
          ?_, ?_, ?_, ?_, ?_, Or.inr (Or.inl ⟨v, e, rfl, rfl⟩), ?_⟩
        · simp [reportLines]
        · simp
        · simp
        · intro e' he
          rcases List.mem_singleton.mp he with rfl
          exact hret.symm
        · simp
        · intro ht; simp at ht
      · refine ⟨[⟨callOf ctx a now cluster q, resp, .panicked m⟩], [], [.panicked m],
          ?_, ?_, ?_, ?_, ?_, Or.inr (Or.inr ⟨m, rfl, rfl⟩), ?_⟩
        · simp [reportLines]
        · simp
        · simp
        · intro e' he
          rcases List.mem_singleton.mp he with rfl
          exact hret.symm
        · simp
        · intro ht; simp at ht

theorem main_spec (env : Env) (flags : Flags) :
    ((flags.cluster = "" ∨ flags.thanosQuery = "") ∧
      main env flags =
        (⟨"cluster or thanos query url cannot be empty", [], 0, [], [], []⟩, .exit 1)) ∨
    (¬ (flags.cluster = "" ∨ flags.thanosQuery = "") ∧
      ∃ err, env.newClient flags.thanosQuery = some err ∧
        main env flags =
          (⟨"failed to query thanos: " ++ err.msg, [flags.thanosQuery], 0, [], [], []⟩, .exit 1)) ∨
    (¬ (flags.cluster = "" ∨ flags.thanosQuery = "") ∧
      env.newClient flags.thanosQuery = none ∧
      ∃ (es : List Entry) (vs : List Int) (tail : List (Ret Int)),
        es.map Entry.call = (queries.take es.length).map
          (callOf (runContext env flags) ⟨flags.thanosQuery⟩ (env.clock 0) flags.cluster) ∧
        es.length ≤ 4 ∧
        (∀ e ∈ es, e.ret = retOf env.impl e.resp) ∧
        es.map Entry.ret = vs.map okRet ++ tail ∧
        ((tail = [] ∧ vs.length = 4 ∧
            main env flags =
              (ranWorld env flags (reportLines flags.cluster items vs) es, .exit 0)) ∨
         (∃ v e, tail = [.returned v (some e)] ∧
            main env flags =
              (ranWorld env flags
                (reportLines flags.cluster items vs ++ "failed to query thanos: " ++ e.msg) es,
               .exit 1)) ∨
         (∃ m, tail = [.panicked m] ∧
            main env flags =
              (ranWorld env flags (reportLines flags.cluster items vs) es, .panic m)))) := by
  by_cases hflags : flags.cluster = "" ∨ flags.thanosQuery = ""
  · left
    refine ⟨hflags, ?_⟩
    rw [main, if_pos hflags]
    simp [Printf, World.init, Sprintf_empty_flags]
  · right
    rcases hnc : env.newClient flags.thanosQuery with _ | err
    · right
      refine ⟨hflags, rfl, ?_⟩
      obtain ⟨es, vs, tail, hw, hcalls, hlen, hcons, hrets, hclose, hfull⟩ :=
        runLoop_spec env flags.cluster (runContext env flags) ⟨flags.thanosQuery⟩ (env.clock 0)
          queries.enum items
          ⟨"", [flags.thanosQuery], 2, [runContext env flags], [], []⟩ (by decide)
      have hrun : run env flags World.init =
          ({ (runLoop env flags.cluster (runContext env flags) ⟨flags.thanosQuery⟩ (env.clock 0)
                queries.enum ⟨"", [flags.thanosQuery], 2, [runContext env flags], [], []⟩).1 with
              cancelled := (runLoop env flags.cluster (runContext env flags) ⟨flags.thanosQuery⟩
                (env.clock 0) queries.enum
                ⟨"", [flags.thanosQuery], 2, [runContext env flags], [], []⟩).1.cancelled
                  ++ [runContext env flags] },
            (runLoop env flags.cluster (runContext env flags) ⟨flags.thanosQuery⟩ (env.clock 0)
                queries.enum ⟨"", [flags.thanosQuery], 2, [runContext env flags], [], []⟩).2) := by
        simp [run, hnc, timeNow, WithTimeout, World.init, runContext]
      refine ⟨es, vs, tail, ?_, ?_, hcons, hrets, ?_⟩
      · rw [hcalls, List.map_take, List.map_take]
        rfl
      · simpa [queries] using hlen
      · rw [main, if_neg hflags, hrun, hw]
        rcases hclose with ⟨ht, hr⟩ | ⟨v, e, ht, hr⟩ | ⟨m, ht, hr⟩
        · left
          refine ⟨ht, by simpa [queries] using hfull ht, ?_⟩
          rw [hr]
          simp [ranWorld]
        · right; left
          refine ⟨v, e, ht, ?_⟩
          rw [hr]
          simp [ranWorld, Printf, Sprintf_failed, String.append_assoc]
        · right; right
          refine ⟨m, ht, ?_⟩
          rw [hr]
          simp [ranWorld]
    · left
      refine ⟨hflags, err, rfl, ?_⟩
      rw [main, if_neg hflags]
      simp [run, hnc, Printf, World.init, Sprintf_failed]

/-! ## The claims -/

theorem okRets_unique : ∀ (vs vs' : List Int) (t t' : List (Ret Int)),
    (∀ r, t.head? = some r → r.isOk = false) → (∀ r, t'.head? = some r → r.isOk = false) →
    vs.map okRet ++ t = vs'.map okRet ++ t' → vs = vs' ∧ t = t' := by
  intro vs
  induction vs with
  | nil =>
    intro vs' t t' ht ht' h
    cases vs' with
    | nil => exact ⟨rfl, by simpa using h⟩
    | cons v vs' =>
      exfalso
      simp only [List.map_nil, List.nil_append, List.map_cons, List.cons_append] at h
      have := ht (okRet v) (by rw [h]; rfl)
      simp [okRet, Ret.isOk] at this
  | cons v vs ih =>
    intro vs' t t' ht ht' h
    cases vs' with
    | nil =>
      exfalso
      simp only [List.map_nil, List.nil_append, List.map_cons, List.cons_append] at h
      have := ht' (okRet v) (by rw [← h]; rfl)
      simp [okRet, Ret.isOk] at this
    | cons v' vs' =>
      simp only [List.map_cons, List.cons_append, List.cons.injEq] at h
      obtain ⟨hv, hrest⟩ := h
      have hv' : v = v' := by simpa [okRet] using hv
      obtain ⟨h1, h2⟩ := ih vs' t t' ht ht' hrest
      exact ⟨by rw [hv', h1], h2⟩

/-- C1: when the four calls of `query` return the integers `v1`, `v2`, `v3`,
`v4` with a nil error, standard output is exactly the four report lines for the
cluster name, in the order CPU, memory, ephemeral storage, storage, and the
process exits with code 0. -/
theorem report_when_all_succeed (env : Env) (flags : Flags) (v1 v2 v3 v4 : Int)
    (h : (main env flags).1.trace.map Entry.ret =
      [.returned v1 none, .returned v2 none, .returned v3 none, .returned v4 none]) :
    (main env flags).1.stdout =
        flags.cluster ++ " cluster CPU: " ++ toString v1 ++ "\n" ++
        (flags.cluster ++ " cluster memory: " ++ toString v2 ++ "\n") ++
        (flags.cluster ++ " cluster ephemeral storage: " ++ toString v3 ++ "\n") ++
        (flags.cluster ++ " cluster storage: " ++ toString v4 ++ "\n") ∧
      (main env flags).2 = .exit 0 ∧ (main env flags).2.exitCode = 0 := by
  rcases main_spec env flags with ⟨_, hm⟩ | ⟨_, err, _, hm⟩ | ⟨_, _, es, vs, tail, _, _, _, hrets, hcase⟩
  · rw [hm] at h; simp at h
  · rw [hm] at h; simp at h
  · have key : ∀ out t, (main env flags) = (ranWorld env flags out es, t) →
        (∀ r, tail.head? = some r → r.isOk = false) →
        vs = [v1, v2, v3, v4] ∧ tail = [] := by
      intro out t hm ht
      rw [hm] at h
      simp only [ranWorld] at h
      rw [hrets] at h
      exact okRets_unique vs [v1, v2, v3, v4] tail [] ht (by simp) (by simpa [okRet] using h)
    rcases hcase with ⟨ht, _, hm⟩ | ⟨v, e, ht, hm⟩ | ⟨m, ht, hm⟩
    · obtain ⟨hvs, _⟩ := key _ _ hm (by simp [ht])
      rw [hm, hvs]
      simp [ranWorld, reportLines, reportLine, items, Termination.exitCode, String.append_assoc]
    · obtain ⟨_, ht'⟩ := key _ _ hm (by simp [ht, Ret.isOk])
      rw [ht] at ht'; simp at ht'
    · obtain ⟨_, ht'⟩ := key _ _ hm (by simp [ht, Ret.isOk])
      rw [ht] at ht'; simp at ht'

theorem report_when_all_succeed_witness :
    (main prodEnv prodFlags).1.trace.map Entry.ret =
        [.returned 32000 none, .returned 131072 none, .returned 500 none, .returned 2000 none] ∧
      (main prodEnv prodFlags).1.stdout =
        "prod cluster CPU: 32000\nprod cluster memory: 131072\nprod cluster ephemeral storage: 500\nprod cluster storage: 2000\n" ∧
      (main prodEnv prodFlags).2.exitCode = 0 :=
  ⟨by decide,
   (report_when_all_succeed prodEnv prodFlags 32000 131072 500 2000 (by decide)).1,
   (report_when_all_succeed prodEnv prodFlags 32000 131072 500 2000 (by decide)).2.2⟩

/-- C2: when the first calls of `query` return the values `vs` with a nil error
and the next one returns the error `e`, standard output is exactly the report
lines of those first metrics in definition order followed by
`failed to query thanos: ` and the text of `e`, with nothing after it, and the
process exits with code 1; the failing query is one of the four. -/
theorem abort_on_first_error (env : Env) (flags : Flags) (vs : List Int) (v : Int) (e : GoError)
    (h : (main env flags).1.trace.map Entry.ret =
      vs.map (fun x => Ret.returned x none) ++ [.returned v (some e)]) :
    (main env flags).1.stdout =
        reportLines flags.cluster items vs ++ "failed to query thanos: " ++ e.msg ∧
      (main env flags).2 = .exit 1 ∧ (main env flags).2.exitCode = 1 ∧
      vs.length + 1 ≤ 4 := by
  rcases main_spec env flags with ⟨_, hm⟩ | ⟨_, err, _, hm⟩ |
    ⟨_, _, es, vs', tail, _, hlen, _, hrets, hcase⟩
  · rw [hm] at h; simp at h
  · rw [hm] at h; simp at h
  · have key : ∀ out t, (main env flags) = (ranWorld env flags out es, t) →
        (∀ r, tail.head? = some r → r.isOk = false) →
        vs' = vs ∧ tail = [.returned v (some e)] := by
      intro out t hm ht
      rw [hm] at h
      simp only [ranWorld] at h
      rw [hrets] at h
      exact okRets_unique vs' vs tail [.returned v (some e)] ht (by simp [Ret.isOk]) h
    have hl : ∀ out t, (main env flags) = (ranWorld env flags out es, t) → vs.length + 1 ≤ 4 := by
      intro out t hm
      rw [hm] at h
      simp only [ranWorld] at h
      have := congrArg List.length h
      simp at this
      omega
    rcases hcase with ⟨ht, _, hm⟩ | ⟨v0, e0, ht, hm⟩ | ⟨m, ht, hm⟩
    · obtain ⟨_, ht'⟩ := key _ _ hm (by simp [ht])
      rw [ht] at ht'; simp at ht'
    · obtain ⟨hvs, ht'⟩ := key _ _ hm (by simp [ht, Ret.isOk])
      rw [ht] at ht'
      simp only [List.cons.injEq, Ret.returned.injEq, Option.some.injEq, and_true] at ht'
      refine ⟨?_, ?_, ?_, hl _ _ hm⟩
      · rw [hm, hvs, ht'.2]; rfl
      · rw [hm]
      · rw [hm]; rfl
    · obtain ⟨_, ht'⟩ := key _ _ hm (by simp [ht, Ret.isOk])
      rw [ht] at ht'; simp at ht'

theorem abort_on_first_error_witness :
    (main memoryFailsEnv prodFlags).1.trace.map Entry.ret =
        [.returned 32000 none, .returned 0 (some ⟨"context deadline exceeded"⟩)] ∧
      (main memoryFailsEnv prodFlags).1.stdout =
        "prod cluster CPU: 32000\nfailed to query thanos: context deadline exceeded" ∧
      (main memoryFailsEnv prodFlags).2.exitCode = 1 :=
  ⟨by decide,
   (abort_on_first_error memoryFailsEnv prodFlags [32000] 0 ⟨"context deadline exceeded"⟩
      (by decide)).1,
   (abort_on_first_error memoryFailsEnv prodFlags [32000] 0 ⟨"context deadline exceeded"⟩
      (by decide)).2.2.1⟩

/-- C3: on a vector-shaped response `getValue` returns an error exactly when
the vector has no element, and then the value is 0 and the message is the
empty-result text. -/
theorem getValue_error_iff_empty (impl : Float64 → Int) (samples : List (Option Sample)) :
    ((∃ v e, getValue impl (.vector samples) = .returned v (some e)) ↔ samples.length = 0) ∧
    (∀ v e, getValue impl (.vector samples) = .returned v (some e) →
      v = 0 ∧ e.msg =
        "empty result returned, please check whether the cluster is added to Thanos query or not") ∧
    getValue impl (.vector []) = .returned 0
      (some ⟨"empty result returned, please check whether the cluster is added to Thanos query or not"⟩) := by
  cases samples with
  | nil => simp [getValue]
  | cons s rest => cases s <;> simp [getValue]

/-- C4: for a non-empty vector whose first sample is the finite number
`m * 2 ^ e` lying in the `int64` range, `getValue` returns, with a nil error,
that number truncated toward zero. -/
theorem getValue_truncates (impl : Float64 → Int) (s : Sample) (rest : List (Option Sample))
    (m e : Int)
    (hs : s.value = .finite m e)
    (hlo : ((minInt64 : Int) : ℚ) ≤ dyadic m e) (hhi : dyadic m e ≤ ((maxInt64 : Int) : ℚ)) :
    getValue impl (.vector (some s :: rest)) = .returned (truncTowardZero (dyadic m e)) none := by
  have hrange : minInt64 ≤ truncDyadic m e ∧ truncDyadic m e ≤ maxInt64 := by
    rw [truncDyadic_eq]
    unfold truncTowardZero
    split
    next h0 =>
      constructor
      · have : (0 : Int) ≤ ⌊dyadic m e⌋ := Int.floor_nonneg.mpr h0
        have hmin : minInt64 ≤ 0 := by decide
        omega
      · have h1 : ((⌊dyadic m e⌋ : Int) : ℚ) ≤ dyadic m e := Int.floor_le _
        exact_mod_cast h1.trans hhi
    next h0 =>
      constructor
      · have h1 : dyadic m e ≤ ((⌈dyadic m e⌉ : Int) : ℚ) := Int.le_ceil _
        exact_mod_cast hlo.trans h1
      · have : ⌈dyadic m e⌉ ≤ 0 := Int.ceil_le.mpr (by push_cast; exact le_of_lt (not_le.mp h0))
        have hmax : (0 : Int) ≤ maxInt64 := by decide
        omega
  have hif : int64OfFloat64 impl (.finite m e) = truncDyadic m e := by
    simp only [int64OfFloat64]
    rw [if_pos hrange]
  simp [getValue, hs, hif, truncDyadic_eq]

theorem getValue_truncates_witness :
    (((minInt64 : Int) : ℚ) ≤ dyadic 8796141125841715 (-36) ∧
      dyadic 8796141125841715 (-36) ≤ ((maxInt64 : Int) : ℚ) ∧
      getValue (fun _ => 0) (.vector [some ⟨[], .finite 8796141125841715 (-36), 0⟩]) =
        .returned (truncTowardZero (dyadic 8796141125841715 (-36))) none ∧
      truncTowardZero (dyadic 8796141125841715 (-36)) = 128000) ∧
    (((minInt64 : Int) : ℚ) ≤ dyadic (-3) (-1) ∧ dyadic (-3) (-1) ≤ ((maxInt64 : Int) : ℚ) ∧
      getValue (fun _ => 0) (.vector [some ⟨[], .finite (-3) (-1), 0⟩]) =
        .returned (truncTowardZero (dyadic (-3) (-1))) none ∧
      truncTowardZero (dyadic (-3) (-1)) = -1) := by
  have a1 : ((minInt64 : Int) : ℚ) ≤ dyadic 8796141125841715 (-36) := by
    norm_num [minInt64, dyadic, zpow_neg]
  have a2 : dyadic 8796141125841715 (-36) ≤ ((maxInt64 : Int) : ℚ) := by
    norm_num [maxInt64, dyadic, zpow_neg]
  have b1 : ((minInt64 : Int) : ℚ) ≤ dyadic (-3) (-1) := by
    norm_num [minInt64, dyadic, zpow_neg]
  have b2 : dyadic (-3) (-1) ≤ ((maxInt64 : Int) : ℚ) := by
    norm_num [maxInt64, dyadic, zpow_neg]
  refine ⟨⟨a1, a2, getValue_truncates _ _ _ _ _ rfl a1 a2, ?_⟩,
    ⟨b1, b2, getValue_truncates _ _ _ _ _ rfl b1 b2, ?_⟩⟩
  · rw [← truncDyadic_eq]; decide
  · rw [← truncDyadic_eq]; decide

/-- The double nearest to 128000.7 is `8796141125841715 * 2 ^ (-36)`: the
mantissa has 53 bits and the distance is at most half a unit in the last
place. It is not rounded to 128001, and -1.5 is not floored to -2. -/
theorem truncation_examples (impl : Float64 → Int) :
    ((2 : Int) ^ 52 ≤ 8796141125841715 ∧ (8796141125841715 : Int) < 2 ^ 53 ∧
      |(1280007 / 10 : ℚ) - dyadic 8796141125841715 (-36)| ≤ 1 / 2 ^ 37) ∧
    getValue impl (.vector [some ⟨[], .finite 8796141125841715 (-36), 0⟩]) = .returned 128000 none ∧
    round (dyadic 8796141125841715 (-36)) = 128001 ∧
    getValue impl (.vector [some ⟨[], .finite (-3) (-1), 0⟩]) = .returned (-1) none ∧
    dyadic (-3) (-1) = -3 / 2 ∧ ⌊dyadic (-3) (-1)⌋ = -2 := by
  refine ⟨⟨by norm_num, by norm_num, ?_⟩, ?_, ?_, ?_, ?_, ?_⟩
  · rw [abs_le]; constructor <;> norm_num [dyadic, zpow_neg]
  · have : truncDyadic 8796141125841715 (-36) = 128000 := by decide
    simp [getValue, int64OfFloat64, this, minInt64, maxInt64]
  · rw [round_eq, Int.floor_eq_iff]; constructor <;> norm_num [dyadic, zpow_neg]
  · have : truncDyadic (-3) (-1) = -1 := by decide
    simp [getValue, int64OfFloat64, this, minInt64, maxInt64]
  · norm_num [dyadic, zpow_neg]
  · rw [Int.floor_eq_iff]; constructor <;> norm_num [dyadic, zpow_neg]

/-- C5: when the cluster name or the backend address is empty, the process
prints exactly `cluster or thanos query url cannot be empty`, with no newline,
and exits with code 1; no query client is built, the clock is not read, no
context is created and no query is issued. -/
theorem empty_flags_abort (env : Env) (flags : Flags)
    (h : flags.cluster = "" ∨ flags.thanosQuery = "") :
    main env flags =
      (⟨"cluster or thanos query url cannot be empty", [], 0, [], [], []⟩, .exit 1) ∧
    (main env flags).2.exitCode = 1 ∧ (main env flags).1.clients = [] ∧
    (main env flags).1.trace = [] := by
  rcases main_spec env flags with ⟨_, hm⟩ | ⟨hn, _⟩ | ⟨hn, _⟩
  · rw [hm]; exact ⟨rfl, rfl, rfl, rfl⟩
  · exact absurd h hn
  · exact absurd h hn

theorem empty_flags_abort_witness :
    (defaultFlags.cluster = "" ∨ defaultFlags.thanosQuery = "") ∧
    main prodEnv defaultFlags =
      (⟨"cluster or thanos query url cannot be empty", [], 0, [], [], []⟩, .exit 1) :=
  ⟨by decide, (empty_flags_abort prodEnv defaultFlags (by decide)).1⟩

theorem substitutesOnce_intro (template pre suf : String) (h : template = pre ++ "%s" ++ suf)
    (hp : '%' ∉ pre.data) (hs : '%' ∉ suf.data) : SubstitutesOnce template pre suf := by
  refine ⟨h, hp, hs, ?_, ?_⟩
  · intro c; rw [h]; exact Sprintf_template pre suf c hp hs
  · intro env w ctx a t c
    rw [query_eq]
    simp [callOf, h, Sprintf_template pre suf c hp hs]

/-- C6: each of the four templates holds the placeholder `%s` once and no other
percent sign, so that the query string sent for a cluster name is the text
before the placeholder, the name, and the text after it. -/
theorem templates_substitute_once :
    SubstitutesOnce queryCPU
      "sum(kube_node_status_capacity\x7bcluster=\"" "\", resource=\"cpu\"\x7d) * 1000" ∧
    SubstitutesOnce queryMemory
      "sum(kube_node_status_capacity\x7bcluster=\"" "\", resource=\"memory\"\x7d)/1024/1024" ∧
    SubstitutesOnce queryEphemeralStorage
      "sum(node_filesystem_size_bytes\x7bfstype=~\"ext[234]|btrfs|xfs|zfs\",cluster=\""
      "\", job=\"node-exporter\", mountpoint=\"/var\"\x7d )/1024/1024/1024" ∧
    SubstitutesOnce queryStorage
      "ceph_cluster_total_bytes\x7bcluster=\"" "\"\x7d/1024/1024/1024" :=
  ⟨substitutesOnce_intro _ _ _ (by decide) (by decide) (by decide),
   substitutesOnce_intro _ _ _ (by decide) (by decide) (by decide),
   substitutesOnce_intro _ _ _ (by decide) (by decide) (by decide),
   substitutesOnce_intro _ _ _ (by decide) (by decide) (by decide)⟩

theorem endTime_le_deadline (deadline : Int) :
    ∀ (timed : List (Entry × Int)) (start : Int),
      (∀ p ∈ timed, p.1.call.ctx.deadline = deadline) → DeadlineHonoured start timed →
      endTime start timed ≤ max start deadline := by
  intro timed
  induction timed with
  | nil => intro start _ _; simp [endTime]
  | cons p rest ih =>
    obtain ⟨e, d⟩ := p
    intro start hall hh
    obtain ⟨_, hd, hrest⟩ := hh
    have he : e.call.ctx.deadline = deadline := hall (e, d) (by simp)
    rw [he] at hd
    have h1 := ih (start + d) (fun p hp => hall p (List.mem_cons_of_mem _ hp)) hrest
    have h2 : max (start + d) deadline ≤ max start deadline := max_le hd (le_max_right _ _)
    exact h1.trans h2

/-- C7: in a run that reaches the loop (both flags non-empty, the client
built), exactly one context is created, before any query: its deadline is the
clock reading at its creation plus the timeout. At least one query is issued;
every query issued carries that one context and the one evaluation time, and
the clock is read for these two only, never again for a later query. Hence,
whenever the backend honours the context of each call, the last call returns
no later than that one deadline: the queries together get one timeout. -/
theorem single_shared_deadline (env : Env) (flags : Flags)
    (hflags : ¬ (flags.cluster = "" ∨ flags.thanosQuery = ""))
    (hclient : env.newClient flags.thanosQuery = none) :
    (main env flags).1.contexts = [⟨env.clock 1 + flags.timeout⟩] ∧
    (main env flags).1.clockReads = 2 ∧
    (main env flags).1.trace ≠ [] ∧
    (main env flags).1.trace.map (fun e => e.call.ctx) =
      List.replicate (main env flags).1.trace.length ⟨env.clock 1 + flags.timeout⟩ ∧
    (main env flags).1.trace.map (fun e => e.call.ts) =
      List.replicate (main env flags).1.trace.length (env.clock 0) ∧
    (∀ (timed : List (Entry × Int)) (start : Int),
      timed.map Prod.fst = (main env flags).1.trace → DeadlineHonoured start timed →
      endTime start timed ≤ max start (env.clock 1 + flags.timeout)) := by
  rcases main_spec env flags with ⟨h, _⟩ | ⟨_, err, herr, _⟩ |
    ⟨_, _, es, vs, tail, hcalls, hlen, _, hrets, hcase⟩
  · exact absurd h hflags
  · rw [hclient] at herr; cases herr
  · have hw : ∃ out t, main env flags = (ranWorld env flags out es, t) := by
      rcases hcase with ⟨_, _, hm⟩ | ⟨_, _, _, hm⟩ | ⟨_, _, hm⟩ <;> exact ⟨_, _, hm⟩
    obtain ⟨out, t, hm⟩ := hw
    have hne : es ≠ [] := by
      intro h0
      rw [h0] at hrets
      have hl := congrArg List.length hrets
      simp only [List.map_nil, List.length_nil, List.length_append, List.length_map] at hl
      rcases hcase with ⟨_, h4, _⟩ | ⟨_, _, ht, _⟩ | ⟨_, ht, _⟩
      · omega
      · rw [ht] at hl; simp at hl
      · rw [ht] at hl; simp at hl
    have hl : (List.take es.length queries).length = es.length := by
      simp [queries]; omega
    have h1 : es.map (fun e => e.call.ctx) = List.replicate es.length (runContext env flags) := by
      have : es.map (fun e => e.call.ctx) = (es.map Entry.call).map QueryCall.ctx := by simp
      rw [this, hcalls, List.map_map]
      rw [List.eq_replicate_iff]
      refine ⟨by rw [List.length_map, hl], ?_⟩
      intro b hb
      simp only [List.mem_map, Function.comp] at hb
      obtain ⟨q, _, rfl⟩ := hb
      rfl
    have h2 : es.map (fun e => e.call.ts) = List.replicate es.length (env.clock 0) := by
      have : es.map (fun e => e.call.ts) = (es.map Entry.call).map QueryCall.ts := by simp
      rw [this, hcalls, List.map_map]
      rw [List.eq_replicate_iff]
      refine ⟨by rw [List.length_map, hl], ?_⟩
      intro b hb
      simp only [List.mem_map, Function.comp] at hb
      obtain ⟨q, _, rfl⟩ := hb
      rfl
    rw [hm]
    refine ⟨rfl, rfl, hne, h1, h2, ?_⟩
    intro timed start htimed hh
    apply endTime_le_deadline _ timed start _ hh
    intro p hp
    have hpe : p.1 ∈ es := by
      have : p.1 ∈ timed.map Prod.fst := List.mem_map_of_mem _ hp
      rw [htimed] at this
      exact this
    have hc : p.1.call.ctx ∈ es.map (fun e => e.call.ctx) :=
      List.mem_map_of_mem (fun e => e.call.ctx) hpe
    rw [h1] at hc
    rw [(List.mem_replicate.mp hc).2]
    rfl

theorem single_shared_deadline_witness :
    (¬ (oneSecondFlags.cluster = "" ∨ oneSecondFlags.thanosQuery = "") ∧
      slowEnv.newClient oneSecondFlags.thanosQuery = none ∧
      slowTimed.map Prod.fst = (main slowEnv oneSecondFlags).1.trace ∧
      DeadlineHonoured 1001 slowTimed) ∧
    (main slowEnv oneSecondFlags).1.contexts = [⟨1001 + 1000000000⟩] ∧
    (main slowEnv oneSecondFlags).1.trace.map (fun e => e.call.ctx) =
      [⟨1001 + 1000000000⟩, ⟨1001 + 1000000000⟩, ⟨1001 + 1000000000⟩] ∧
    endTime 1001 slowTimed ≤ max 1001 (1001 + 1000000000) ∧
    endTime 1001 slowTimed = 1001 + 1000000000 ∧
    (∀ p ∈ slowTimed, p.2 < oneSecondFlags.timeout) ∧
    (main slowEnv oneSecondFlags).1.stdout =
      "prod cluster CPU: 32000\nprod cluster memory: 131072\nfailed to query thanos: context deadline exceeded" ∧
    (main slowEnv oneSecondFlags).2.exitCode = 1 := by
  have hflags : ¬ (oneSecondFlags.cluster = "" ∨ oneSecondFlags.thanosQuery = "") := by decide
  have htimed : slowTimed.map Prod.fst = (main slowEnv oneSecondFlags).1.trace := by decide
  have hh : DeadlineHonoured 1001 slowTimed := by
    simp [slowTimed, main, run, runLoop, query, getValue, timeNow, WithTimeout, World.init,
      queries, List.enum, oneSecondFlags, slowEnv, sampleVector, Printf, items, DeadlineHonoured]
  have key := single_shared_deadline slowEnv oneSecondFlags hflags rfl
  exact ⟨⟨hflags, rfl, htimed, hh⟩, key.1, by decide, key.2.2.2.2.2 slowTimed 1001 htimed hh,
    by decide, by decide, by decide, by decide⟩

theorem getValue_not_vector (impl : Float64 → Int) (val : Value) (h : val.isVector = false) :
    getValue impl val = .panicked (typeAssertMsg val) := by
  cases val <;> simp [getValue, Value.isVector] at h ⊢

/-- C8, as stated, fails: the backend answers the second query with a scalar
and a nil error; `getValue` panics on the type assertion, the process ends by
that panic with exit status 2, not 1, and standard output holds the CPU line
only, without any `failed to query thanos` message. -/
theorem shape_error_counterexample :
    (main scalarEnv prodFlags).1.trace.map (fun e => (e.resp.err, e.resp.value.isVector)) =
        [(none, true), (none, false)] ∧
      (main scalarEnv prodFlags).1.trace.map Entry.ret =
        [.returned 32000 none,
         .panicked "interface conversion: model.Value is *model.Scalar, not model.Vector"] ∧
      (main scalarEnv prodFlags).2 =
        .panic "interface conversion: model.Value is *model.Scalar, not model.Vector" ∧
      (main scalarEnv prodFlags).2.exitCode = 2 ∧
      ¬ ((main scalarEnv prodFlags).2.exitCode = 1) ∧
      (main scalarEnv prodFlags).1.stdout = "prod cluster CPU: 32000\n" := by
  decide

/-- C8 amended: when the backend answers a query with a nil error and a value
that is not vector-shaped, `getValue` panics on the type assertion: the process
ends by that panic, with exit status 2; standard output holds exactly the
report lines of the metrics queried before, and no failure message. -/
theorem shape_error_panics (env : Env) (flags : Flags) (e : Entry)
    (he : e ∈ (main env flags).1.trace) (herr : e.resp.err = none)
    (hv : e.resp.value.isVector = false) :
    (main env flags).2 = .panic (typeAssertMsg e.resp.value) ∧
    (main env flags).2.exitCode = 2 ∧
    ∃ vs : List Int, vs.length + 1 ≤ 4 ∧
      (main env flags).1.trace.map Entry.ret =
        vs.map (fun x => Ret.returned x none) ++ [.panicked (typeAssertMsg e.resp.value)] ∧
      (main env flags).1.stdout = reportLines flags.cluster items vs := by
  rcases main_spec env flags with ⟨_, hm⟩ | ⟨_, err, _, hm⟩ |
    ⟨_, _, es, vs, tail, _, hlen, hcons, hrets, hcase⟩
  · rw [hm] at he; simp at he
  · rw [hm] at he; simp at he
  · have hes : e ∈ es := by
      rcases hcase with ⟨_, _, hm⟩ | ⟨_, _, _, hm⟩ | ⟨_, _, hm⟩ <;>
        · rw [hm] at he; exact he
    have hret : e.ret = .panicked (typeAssertMsg e.resp.value) := by
      rw [hcons e hes, retOf, herr]
      exact getValue_not_vector _ _ hv
    have hin : Ret.panicked (typeAssertMsg e.resp.value) ∈ vs.map okRet ++ tail := by
      rw [← hrets, ← hret]
      exact List.mem_map_of_mem _ hes
    have htail : Ret.panicked (typeAssertMsg e.resp.value) ∈ tail := by
      rcases List.mem_append.mp hin with h | h
      · simp [okRet] at h
      · exact h
    have hl : vs.length + tail.length ≤ 4 := by
      have := congrArg List.length hrets
      simp at this
      omega
    rcases hcase with ⟨ht, _, hm⟩ | ⟨v0, e0, ht, hm⟩ | ⟨m, ht, hm⟩
    · rw [ht] at htail; simp at htail
    · rw [ht] at htail; simp at htail
    · rw [ht] at htail hl hrets
      simp only [List.mem_singleton, Ret.panicked.injEq] at htail
      rw [← htail] at hm hrets
      rw [hm]
      refine ⟨rfl, rfl, vs, by simpa using hl, ?_, rfl⟩
      simpa [ranWorld, okRet] using hrets

theorem shape_error_panics_witness :
    scalarEntry ∈ (main scalarEnv prodFlags).1.trace ∧ scalarEntry.resp.err = none ∧
    scalarEntry.resp.value.isVector = false ∧
    (main scalarEnv prodFlags).2 =
      .panic "interface conversion: model.Value is *model.Scalar, not model.Vector" ∧
    (main scalarEnv prodFlags).2.exitCode = 2 :=
  ⟨by decide, rfl, rfl,
   (shape_error_panics scalarEnv prodFlags scalarEntry (by decide) rfl rfl).1,
   (shape_error_panics scalarEnv prodFlags scalarEntry (by decide) rfl rfl).2.1⟩

/-- C9, as stated, fails: the storage template holds no `sum` and the CPU
template holds no division, so not every template has both. -/
theorem sum_and_division_counterexample :
    ¬ (∀ template ∈ queries, "sum".data <:+: template.data ∧ '/' ∈ template.data) ∧
    ¬ ("sum".data <:+: queryStorage.data) ∧ '/' ∉ queryCPU.data := by
  decide

/-- C9 amended: the CPU, memory and ephemeral-storage templates start with the
`sum(` aggregation and the storage template has no `sum`; the memory,
ephemeral-storage and storage templates end with their division by powers of
1024 and the CPU template ends with the multiplication `* 1000` and has no
division. The code computes nothing on the value: `getValue` returns the
`int64` conversion of the first sample, and `query` returns what `getValue`
returns for the backend's answer. -/
theorem scaling_in_templates :
    ("sum(".data <+: queryCPU.data ∧ "sum(".data <+: queryMemory.data ∧
      "sum(".data <+: queryEphemeralStorage.data ∧ ¬ ("sum".data <:+: queryStorage.data)) ∧
    (" * 1000".data <:+ queryCPU.data ∧ '/' ∉ queryCPU.data ∧
      ")/1024/1024".data <:+ queryMemory.data ∧
      ")/1024/1024/1024".data <:+ queryEphemeralStorage.data ∧
      "\x7d/1024/1024/1024".data <:+ queryStorage.data) ∧
    (∀ (impl : Float64 → Int) (s : Sample) (rest : List (Option Sample)),
      getValue impl (.vector (some s :: rest)) = .returned (int64OfFloat64 impl s.value) none) ∧
    (∀ (env : Env) (w : World) (ctx : Context) (a : Client) (t : Int) (template c : String),
      (query env w ctx a t template c).2 =
        match (env.backend (w.trace.map Entry.call) (callOf ctx a t c template)).err with
        | some err => .returned 0 (some err)
        | none => getValue env.impl
            (env.backend (w.trace.map Entry.call) (callOf ctx a t c template)).value) := by
  refine ⟨by decide, by decide, ?_, ?_⟩
  · intro impl s rest; simp [getValue]
  · intro env w ctx a t template c; rfl

/-- C10: the query strings issued are a leading part of the four templates
formatted with the cluster name, in the order CPU, memory, ephemeral storage,
storage; at most four queries are issued; and every query followed by another
one had a nil error and a value `getValue` turned into an integer. -/
theorem queries_issued_in_order (env : Env) (flags : Flags) :
    (main env flags).1.trace.map (fun e => e.call.query) <+:
      [Sprintf queryCPU [.str flags.cluster], Sprintf queryMemory [.str flags.cluster],
       Sprintf queryEphemeralStorage [.str flags.cluster],
       Sprintf queryStorage [.str flags.cluster]] ∧
    (main env flags).1.trace.length ≤ 4 ∧
    (∀ (i : Nat) (e : Entry), (main env flags).1.trace[i]? = some e →
      i + 1 < (main env flags).1.trace.length →
      ∃ v, e.resp.err = none ∧ getValue env.impl e.resp.value = .returned v none ∧
        e.ret = .returned v none) := by
  rcases main_spec env flags with ⟨_, hm⟩ | ⟨_, err, _, hm⟩ |
    ⟨_, _, es, vs, tail, hcalls, hlen, hcons, hrets, hcase⟩
  · rw [hm]; simp
  · rw [hm]; simp
  · have htl : tail.length ≤ 1 := by
      rcases hcase with ⟨ht, _⟩ | ⟨_, _, ht, _⟩ | ⟨_, ht, _⟩ <;> simp [ht]
    have hw : ∃ out t, main env flags = (ranWorld env flags out es, t) := by
      rcases hcase with ⟨_, _, hm⟩ | ⟨_, _, _, hm⟩ | ⟨_, _, hm⟩ <;> exact ⟨_, _, hm⟩
    obtain ⟨out, t, hm⟩ := hw
    rw [hm]
    simp only [ranWorld]
    refine ⟨?_, hlen, ?_⟩
    · have : es.map (fun e => e.call.query) = (es.map Entry.call).map QueryCall.query := by simp
      rw [this, hcalls, List.map_map, List.map_take]
      exact List.take_prefix _ _
    · intro i e hi hlt
      have hes : e ∈ es := List.getElem?_mem hi
      have hlen' : es.length = vs.length + tail.length := by
        have := congrArg List.length hrets
        simpa using this
      have hiv : i < vs.length := by omega
      have hr : (es.map Entry.ret)[i]? = some e.ret := by simp [hi]
      rw [hrets, List.getElem?_append_left (by simpa using hiv)] at hr
      simp only [List.getElem?_map, Option.map_eq_some'] at hr
      obtain ⟨v, _, hv⟩ := hr
      have hret : e.ret = .returned v none := hv.symm
      have hc := hcons e hes
      rw [hret, retOf] at hc
      cases herr : e.resp.err with
      | some err => rw [herr] at hc; simp at hc
      | none =>
        rw [herr] at hc
        exact ⟨v, rfl, hc.symm, hret⟩

theorem queries_issued_in_order_witness :
    (main prodEnv prodFlags).1.trace[0]? = some cpuEntry ∧
    0 + 1 < (main prodEnv prodFlags).1.trace.length ∧
    (main prodEnv prodFlags).1.trace.map (fun e => e.call.query) =
      [Sprintf queryCPU [.str "prod"], Sprintf queryMemory [.str "prod"],
       Sprintf queryEphemeralStorage [.str "prod"], Sprintf queryStorage [.str "prod"]] ∧
    ∃ v, cpuEntry.resp.err = none ∧
      getValue prodEnv.impl cpuEntry.resp.value = .returned v none ∧
      cpuEntry.ret = .returned v none :=
  ⟨by decide, by decide, by decide,
   (queries_issued_in_order prodEnv prodFlags).2.2 0 cpuEntry (by decide) (by decide)⟩

end Promquery
